import Mathlib

/-!
  Verification of the consume pipeline of cmd/kaf/consume.go.

  The Go source is shallowly embedded: bytes are UInt8, byte strings are
  List UInt8, machine integers are Int or Nat, fallible operations return
  Option (where `none` models a Go runtime panic or a loop that has not
  returned yet), and the external collaborators (schema registry decoder,
  pretty printers, broker) are abstract function parameters.
-/

namespace Kaf

/-! ## Offset sentinels and flag resolution (consume.go lines 68 to 80)

  The sentinel constants come from the sarama client library:
  sarama.OffsetNewest = -1 and sarama.OffsetOldest = -2 (the standard
  Kafka list-offsets sentinels). -/

def OffsetNewest : Int := -1

def OffsetOldest : Int := -2

/-- consume.go lines 68 to 80: the switch on the offset flag. An
  unrecognized value falls through to the newest sentinel. -/
def resolveFlagOffset (offsetFlag : String) : Int :=
  match offsetFlag with
  | "oldest" => OffsetOldest
  | "newest" => OffsetNewest
  | _ => OffsetNewest

/-! ## The offset probe retry loop (consume.go lines 39 to 58)

  The Go loop is

    for { select { case <-time.After(d): return nil, err
                   default: offsets, err = ldr.GetAvailableOffsets(req)
                            if err == nil { return offsets, err } } }

  Each iteration of the loop evaluates time.After(d) afresh, creating a
  brand new timer channel, and polls it in the same select that has a
  default branch. A timer channel created at some instant t is ready at
  the poll in that same instant if and only if t + d is not after t,
  that is if and only if d is not positive. So the timeout branch of the
  select is taken exactly when d is not positive; otherwise the default
  branch runs one more attempt.

  The embedding is fuel indexed: the result is `none` when the loop is
  still running after the given number of iterations, and `some r` when
  the Go function has returned r (a pair of optional offsets and
  optional error, mirroring the Go multiple return values). -/
def getAvailableOffsetsRetry (attempt : Nat → Except String Nat) (d : Int) :
    Nat → Option String → Nat → Option (Option Nat × Option String)
  | _, _, 0 => none
  | i, lastErr, fuel + 1 =>
    if d ≤ 0 then some (none, lastErr)
    else
      match attempt i with
      | Except.ok r => some (some r, none)
      | Except.error e => getAvailableOffsetsRetry attempt d (i + 1) (some e) fuel

/-- consume.go line 60: const offsetsRetry = 500 * time.Millisecond,
  expressed in milliseconds. -/
def offsetsRetry : Int := 500

/-! ## Per partition worker setup (consume.go lines 102 to 123)

  Each goroutine builds an offset request, resolves the leader, probes
  the available offsets through getAvailableOffsetsRetry, and only then
  decides the start offset. The probe on line 112 is unconditional: it
  is executed in every offset mode, follow or not. The probed block
  offset is the high watermark; followOffset is that value minus one,
  and it overwrites the shared offset variable only when the follow flag
  is set and followOffset is positive. -/

inductive NetOp where
  | probeOffsets
deriving DecidableEq

/-- consume.go lines 102 to 123: the prefix of one partition worker up
  to the ConsumePartition call. Arguments: the follow flag, the high
  watermark returned by the probe for this partition, and the value of
  the shared offset variable when this worker runs. Returns the list of
  network probes performed, the new value of the shared offset variable,
  and the start offset handed to ConsumePartition. -/
def workerSetup (follow : Bool) (hwm : Int) (sharedOffset : Int) :
    List NetOp × Int × Int :=
  let followOffset := hwm - 1
  let newShared := if follow ∧ followOffset > 0 then followOffset else sharedOffset
  ([NetOp.probeOffsets], newShared, newShared)

/-- The offset variable on line 68 is declared once in the Run closure
  and captured by every partition goroutine, so all workers read and
  write the same variable. This function runs the workers one after
  another (a legal schedule of the goroutines), threading the shared
  variable through, and returns the start offset each partition hands to
  ConsumePartition. -/
def runWorkersSeq (follow : Bool) : Int → List Int → List Int
  | _, [] => []
  | shared, hwm :: rest =>
    let r := workerSetup follow hwm shared
    r.2.2 :: runWorkersSeq follow r.2.1 rest

/-! ## Header value decoding (consume.go lines 148 to 164)

  Byte strings are rendered as text one byte per character (Go renders
  a byte string with string(b)); the rendering is injective on bytes,
  which is all the statements below need. -/

def bytesToText (bs : List UInt8) : String :=
  String.mk (bs.map (fun b => Char.ofNat b.toNat))

/-- binary.BigEndian.Uint64 over a list of bytes, most significant
  first. -/
def beUint64 (bs : List UInt8) : Nat :=
  bs.foldl (fun a b => a * 256 + b.toNat) 0

/-- consume.go lines 148 to 164: the per header value switch. `none`
  models a Go runtime panic (index out of range or slice bounds out of
  range).

  In the 161 branch the Go expression is hdr.Value[2 : 2+hdr.Value[1]].
  hdr.Value[1] panics when the value has fewer than two bytes. The high
  index 2+hdr.Value[1] is byte arithmetic (the untyped constant 2 is
  converted to byte), so it wraps modulo 256; the slice panics unless
  2 <= high <= len(hdr.Value).

  In the 131 branch hdr.Value[1:9] panics unless the value has at least
  nine bytes.

  When the value is empty the switch is skipped and hdrValue keeps its
  zero value, the empty string. -/
def decodeHeaderValue : List UInt8 → Option String
  | [] => some ""
  | b0 :: rest =>
    if b0 = 161 then
      match rest with
      | [] => none
      | b1 :: rest2 =>
        let hi := (2 + b1.toNat) % 256
        if 2 ≤ hi ∧ hi ≤ rest2.length + 2 then
          some (bytesToText (rest2.take (hi - 2)))
        else none
    else if b0 = 131 then
      if 8 ≤ rest.length then some (Nat.repr (beUint64 (rest.take 8)))
      else none
    else some (bytesToText (b0 :: rest))

/-! ## The per message decode pipeline (consume.go lines 128 to 181)

  A fetched record carries partition, offset, timestamp, optional key
  bytes (nil and empty are treated alike by the code, which only tests
  len(msg.Key) > 0), value bytes, and a header list. -/

structure FetchedMsg where
  partition : Int
  offset : Int
  timestamp : Int
  key : List UInt8
  value : List UInt8
  headers : List (List UInt8 × List UInt8)

/-- Modelled from the spec: avro.SchemaCache.DecodeMessage, whose source
  is not part of the extracted tree. Per the spec a decode failure keeps
  the original raw bytes as the displayable value, so the capability
  returns the decoded bytes and no error on success, and the input bytes
  together with an error on failure. The abstract schema decoding
  function f returns `none` exactly when decoding fails. The Bool in the
  result is true when an error was returned. -/
def decodeMessageSpec (f : List UInt8 → Option (List UInt8)) (b : List UInt8) :
    List UInt8 × Bool :=
  match f b with
  | some d => (d, false)
  | none => (b, true)

/-- consume.go lines 191 to 196: when no schema cache is configured the
  bytes pass through unchanged and no error is possible. -/
def avroDecode (sc : Option (List UInt8 → Option (List UInt8))) (b : List UInt8) :
    List UInt8 × Bool :=
  match sc with
  | some f => decodeMessageSpec f b
  | none => (b, false)

/-- consume.go lines 148 to 164: the header loop, producing one rendered
  line per header. A panic while decoding any header value (see
  decodeHeaderValue) aborts the whole worker, modelled by `none`. -/
def decodeHeaders : List (List UInt8 × List UInt8) → Option (List String)
  | [] => some []
  | kv :: rest =>
    match decodeHeaderValue kv.2, decodeHeaders rest with
    | some s, some ls =>
      some (("Key: " ++ bytesToText kv.1 ++ " Value: " ++ s) :: ls)
    | _, _ => none

/-- consume.go lines 198 to 204: the key is pretty printed; on formatter
  failure the raw key bytes are rendered. The formatter kfmt is the
  abstract keyfmt.Format collaborator, `none` meaning failure. -/
def formatKey (kfmt : List UInt8 → Option (List UInt8)) (key : List UInt8) :
    String :=
  match kfmt key with
  | some b => bytesToText b
  | none => bytesToText key

/-- consume.go lines 128 to 181: processing of one fetched record.

  Returns the diagnostic stream lines (the stderr buffer, in the order
  the bytes reach it: the value decode error first, then the key decode
  error, then the tabwriter block flushed at the end holding the header
  lines, the key line and the partition, offset and timestamp lines) and
  the payload bytes written to stdout. jfmt is the abstract
  prettyjson.Format collaborator, `none` meaning failure, in which case
  the unformatted bytes are kept. `none` overall models a panic while
  decoding a header value; the raw branch never reaches the header loop
  or the key block. -/
def processMessage (sc : Option (List UInt8 → Option (List UInt8)))
    (jfmt kfmt : List UInt8 → Option (List UInt8))
    (raw : Bool) (msg : FetchedMsg) : Option (List String × List UInt8) :=
  let dres := avroDecode sc msg.value
  let valueDiags : List String :=
    if dres.2 then ["could not decode Avro data"] else []
  if raw then
    some (valueDiags, dres.1)
  else
    let dataToDisplay := (jfmt dres.1).getD dres.1
    match decodeHeaders msg.headers with
    | none => none
    | some hdrLines =>
      let headerBlock :=
        (if msg.headers.length > 0 then ["Headers:"] else []) ++ hdrLines
      let kres := avroDecode sc msg.key
      let keyDiags : List String :=
        if msg.key.length > 0 then
          (if kres.2 then ["could not decode Avro data"] else [])
        else []
      let keyLines : List String :=
        if msg.key.length > 0 then ["Key: " ++ formatKey kfmt kres.1] else []
      some (valueDiags ++ keyDiags ++ headerBlock ++ keyLines ++
        ["Partition: " ++ toString msg.partition,
         "Offset: " ++ toString msg.offset,
         "Timestamp: " ++ toString msg.timestamp],
        dataToDisplay)

/-- consume.go lines 128 to 182: the fetch loop of one worker over the
  messages delivered by its partition, in order. One output pair per
  fetched record; a panic aborts the loop. -/
def consumeLoop (sc : Option (List UInt8 → Option (List UInt8)))
    (jfmt kfmt : List UInt8 → Option (List UInt8)) (raw : Bool) :
    List FetchedMsg → Option (List (List String × List UInt8))
  | [] => some []
  | m :: rest =>
    match processMessage sc jfmt kfmt raw m, consumeLoop sc jfmt kfmt raw rest with
    | some out, some outs => some (out :: outs)
    | _, _ => none

/-! ## The synchronized sink (consume.go lines 96, 97 and 177 to 181)

  The output side is modelled as a global trace of sink events: lock and
  unlock of the mutex mu, and writes of rendered data to the output
  streams. The mutex semantics is captured by a state machine over the
  current lock holder; a trace is mutexed when it runs from the free
  state back to the free state without any step being refused. Writes
  are guarded events: the code only writes to the shared streams between
  mu.Lock() and mu.Unlock(). -/

inductive SinkEvent where
  | lock (w : Nat)
  | unlock (w : Nat)
  | write (w : Nat) (d : String)
deriving DecidableEq

/-- One step of the lock state machine. The state is the current holder
  of the mutex. Locking requires the mutex free, unlocking requires
  holding it, and a write is legal only for the current holder (in the
  code every stream write sits inside the critical section). -/
def lockStep : Option Nat → SinkEvent → Option (Option Nat)
  | none, SinkEvent.lock w => some (some w)
  | some w, SinkEvent.unlock v => if w = v then some none else none
  | some w, SinkEvent.write v _ => if w = v then some (some w) else none
  | _, _ => none

def runLock : Option Nat → List SinkEvent → Option (Option Nat)
  | s, [] => some s
  | s, e :: t =>
    match lockStep s e with
    | some u => runLock u t
    | none => none

/-- A complete global trace respecting the mutex discipline. -/
def mutexed (t : List SinkEvent) : Prop := runLock none t = some none

instance (t : List SinkEvent) : Decidable (mutexed t) :=
  inferInstanceAs (Decidable (runLock none t = some none))

/-- The data written to the output streams, in global order. -/
def writesOf : List SinkEvent → List String
  | [] => []
  | SinkEvent.write _ d :: t => d :: writesOf t
  | SinkEvent.lock _ :: t => writesOf t
  | SinkEvent.unlock _ :: t => writesOf t

/-- One critical section of worker w writing the data list ds. -/
def segEvents : Nat × List String → List SinkEvent
  | ⟨w, ds⟩ =>
    SinkEvent.lock w :: (ds.map (SinkEvent.write w) ++ [SinkEvent.unlock w])

/-- consume.go lines 177 to 181: the sink events of one record emission
  by worker w: mu.Lock(), the flush of the stderr buffer, the payload
  write, the newline print, mu.Unlock(). -/
def emitEvents (w : Nat) (diag payload : String) : List SinkEvent :=
  [SinkEvent.lock w, SinkEvent.write w diag, SinkEvent.write w payload,
   SinkEvent.write w "\n", SinkEvent.unlock w]

/-! ## Lemmas about the sink trace model -/

lemma runLock_locked_decomp (w : Nat) :
    ∀ t : List SinkEvent, runLock (some w) t = some none →
      ∃ (ds : List String) (t2 : List SinkEvent), t = ds.map (SinkEvent.write w) ++ SinkEvent.unlock w :: t2 ∧
        runLock none t2 = some none := by
  intro t
  induction t with
  | nil => intro h; simp [runLock] at h
  | cons e t ih =>
    intro h
    cases e with
    | lock v => simp [runLock, lockStep] at h
    | unlock v =>
      by_cases hv : w = v
      · subst hv
        refine ⟨[], t, by simp, ?_⟩
        simpa [runLock, lockStep] using h
      · simp [runLock, lockStep, hv] at h
    | write v d =>
      by_cases hv : w = v
      · subst hv
        have h2 : runLock (some w) t = some none := by
          simpa [runLock, lockStep] using h
        obtain ⟨ds, t2, rfl, h3⟩ := ih h2
        exact ⟨d :: ds, t2, by simp, h3⟩
      · simp [runLock, lockStep, hv] at h

lemma runLock_decomp :
    ∀ (n : Nat) (t : List SinkEvent), t.length ≤ n → runLock none t = some none →
      ∃ segs : List (Nat × List String), t = (segs.map segEvents).flatten := by
  intro n
  induction n with
  | zero =>
    intro t ht _
    have : t = [] := List.length_eq_zero.mp (Nat.le_zero.mp ht)
    exact ⟨[], by simp [this]⟩
  | succ n ih =>
    intro t ht h
    match t with
    | [] => exact ⟨[], by simp⟩
    | e :: t1 =>
      cases e with
      | lock w =>
        have h2 : runLock (some w) t1 = some none := by
          simpa [runLock, lockStep] using h
        obtain ⟨ds, t2, rfl, h3⟩ := runLock_locked_decomp w t1 h2
        have hlen : t2.length ≤ n := by
          simp [List.length_append] at ht
          omega
        obtain ⟨segs, hsegs⟩ := ih t2 hlen h3
        refine ⟨(w, ds) :: segs, ?_⟩
        simp [segEvents, hsegs]
      | unlock w => simp [runLock, lockStep] at h
      | write w d => simp [runLock, lockStep] at h

lemma writesOf_append (a b : List SinkEvent) :
    writesOf (a ++ b) = writesOf a ++ writesOf b := by
  induction a with
  | nil => simp [writesOf]
  | cons e t ih => cases e <;> simp [writesOf, ih]

lemma writesOf_map_write (w : Nat) (ds : List String) :
    writesOf (ds.map (SinkEvent.write w)) = ds := by
  induction ds with
  | nil => simp [writesOf]
  | cons d t ih => simp [writesOf, ih]

lemma writesOf_seg (s : Nat × List String) : writesOf (segEvents s) = s.2 := by
  obtain ⟨w, ds⟩ := s
  simp [segEvents, writesOf, writesOf_append, writesOf_map_write]

lemma writesOf_join_segs (segs : List (Nat × List String)) :
    writesOf ((segs.map segEvents).flatten) = (segs.map Prod.snd).flatten := by
  induction segs with
  | nil => simp [writesOf]
  | cons s t ih => simp [writesOf_append, writesOf_seg, ih]

/-! ## Sample records used by closed statements -/

def msgB : FetchedMsg := ⟨0, 0, 0, [], [7], []⟩

def msgC : FetchedMsg := ⟨0, 0, 0, [], [123], []⟩

def msgD : FetchedMsg := ⟨0, 0, 0, [], [120], []⟩

/-! ## Claims -/

/-- C1: the retry loop of getAvailableOffsetsRetry is claimed to make a
  bounded number of attempts and terminate within the 500ms deadline,
  returning the last error once the deadline elapses. The code does not:
  the select polls a freshly created timer each iteration, so the
  timeout branch is never ready and, when every attempt fails, the loop
  runs forever — after any number of iterations it has still not
  returned. The second conjunct records the half of the claim that does
  hold: a successful attempt returns the probed offsets at once. -/
theorem getAvailableOffsetsRetry_never_times_out :
    (∀ (fuel i : Nat) (lastErr : Option String),
      getAvailableOffsetsRetry (fun _ => Except.error "network error")
        offsetsRetry i lastErr fuel = none) ∧
    getAvailableOffsetsRetry (fun _ => Except.ok 7) offsetsRetry 0 none 1 =
      some (some 7, none) := by
  constructor
  · intro fuel
    induction fuel with
    | zero => intro i lastErr; rfl
    | succ n ih =>
      intro i lastErr
      simp only [getAvailableOffsetsRetry]
      rw [if_neg (by norm_num [offsetsRetry])]
      exact ih (i + 1) (some "network error")
  · rfl

/-- C2 counterexample: with the follow flag off and the offset flag at
  its default value oldest, the worker setup still performs the offset
  probe against the leader, refuting the claim that Oldest mode performs
  no network probe. -/
theorem probe_performed_in_oldest_mode :
    (workerSetup false 5 (resolveFlagOffset "oldest")).1 ≠ [] := by
  simp [workerSetup]

/-- C2 amended: the high watermark probe is performed exactly once for
  every partition in every mode, follow or not; the Oldest and Newest
  modes map the flag directly to the broker sentinels and, follow being
  off, leave the probed value unused, the start offset being exactly the
  flag resolved sentinel. -/
theorem probe_always_performed :
    ∀ (follow : Bool) (hwm s : Int),
      (workerSetup follow hwm s).1 = [NetOp.probeOffsets] ∧
      (workerSetup false hwm s).2.2 = s ∧
      resolveFlagOffset "oldest" = OffsetOldest ∧
      resolveFlagOffset "newest" = OffsetNewest := by
  intro follow hwm s
  refine ⟨rfl, ?_, rfl, rfl⟩
  simp [workerSetup]

/-- C3 counterexample: in follow mode with the default offset flag
  oldest and a probed high watermark of 0 (so the high watermark minus
  one is not positive), the resolved start offset is the Oldest
  sentinel, not the Newest sentinel the claim requires. -/
theorem follow_fallback_not_newest :
    (workerSetup true 0 (resolveFlagOffset "oldest")).2.2 = OffsetOldest ∧
    OffsetOldest ≠ OffsetNewest := by
  constructor
  · simp [workerSetup, resolveFlagOffset, OffsetOldest]
  · simp [OffsetOldest, OffsetNewest]

/-- C3 amended: in follow mode, whenever the probed high watermark minus
  one is not positive, the resolved start offset falls back to the
  sentinel derived from the offset flag — always one of the two broker
  sentinels, never a plain negative offset, but the Newest sentinel only
  when the flag says newest or is unrecognized. -/
theorem follow_fallback_flag_offset (flag : String) (hwm : Int)
    (h : hwm - 1 ≤ 0) :
    (workerSetup true hwm (resolveFlagOffset flag)).2.2 =
      resolveFlagOffset flag ∧
    (resolveFlagOffset flag = OffsetOldest ∨
      resolveFlagOffset flag = OffsetNewest) := by
  constructor
  · have hne : ¬ (hwm - 1 > 0) := by omega
    simp [workerSetup, hne]
  · unfold resolveFlagOffset
    split
    · left; rfl
    · right; rfl
    · right; rfl

/-- Witness for C3 amended at the newest flag and an empty partition. -/
theorem follow_fallback_flag_offset_witness :
    ((0 : Int) - 1 ≤ 0) ∧
    ((workerSetup true 0 (resolveFlagOffset "newest")).2.2 =
        resolveFlagOffset "newest" ∧
      (resolveFlagOffset "newest" = OffsetOldest ∨
        resolveFlagOffset "newest" = OffsetNewest)) :=
  ⟨by norm_num, follow_fallback_flag_offset "newest" 0 (by norm_num)⟩

/-- C4: header decoding is claimed never to raise on any byte sequence,
  degrading to verbatim text. The code panics on truncated vendor
  prefixes: a single 161 byte indexes past the end, a 161 prefix whose
  length byte exceeds the remaining bytes slices out of range, and a 131
  prefix with fewer than eight following bytes slices out of range (all
  modelled by `none`). Unrecognized first bytes and the empty value do
  degrade to verbatim text, as the last two conjuncts record. -/
theorem header_truncated_panics :
    decodeHeaderValue [161] = none ∧
    decodeHeaderValue [161, 250, 0] = none ∧
    decodeHeaderValue [131, 1, 2] = none ∧
    decodeHeaderValue [7, 8] = some (bytesToText [7, 8]) ∧
    decodeHeaderValue [] = some "" := by
  refine ⟨rfl, ?_, rfl, rfl, rfl⟩
  decide

/-- C5 counterexample: a record whose value fails schema decoding but
  whose raw bytes are accepted by the pretty printer is displayed as the
  reformatted bytes, not the raw input bytes, refuting the claim that
  the displayed bytes equal the raw input bytes. -/
theorem pretty_format_changes_displayed_bytes :
    processMessage (some fun _ => none) (fun b => some (b ++ [32]))
        (fun _ => none) false msgC =
      some (["could not decode Avro data", "Partition: 0", "Offset: 0",
          "Timestamp: 0"], [123, 32]) ∧
    ([123, 32] : List UInt8) ≠ msgC.value := by
  constructor
  · rfl
  · simp [msgC]

/-- C5 amended: every fetched record whose headers decode without a
  panic yields exactly one output record even when the schema decode of
  its value fails: the failure does not raise, a nonempty diagnostic is
  attached, and the displayed bytes are the raw input bytes except that
  in non raw mode a successful pretty reformatting of those raw bytes is
  displayed instead. The second conjunct states the one output per
  record invariant for the whole fetch loop. -/
theorem decode_failure_degrades :
    (∀ (f : List UInt8 → Option (List UInt8))
        (jfmt kfmt : List UInt8 → Option (List UInt8))
        (raw : Bool) (m : FetchedMsg),
      decodeHeaders m.headers ≠ none → f m.value = none →
      ∃ out, processMessage (some f) jfmt kfmt raw m = some out ∧
        out.1 ≠ [] ∧
        (out.2 = m.value ∨ (raw = false ∧ jfmt m.value = some out.2))) ∧
    (∀ (sc : Option (List UInt8 → Option (List UInt8)))
        (jfmt kfmt : List UInt8 → Option (List UInt8)) (raw : Bool)
        (msgs : List FetchedMsg) (outs : List (List String × List UInt8)),
      consumeLoop sc jfmt kfmt raw msgs = some outs →
      outs.length = msgs.length) := by
  constructor
  · intro f jfmt kfmt raw m hhdr hf
    have hdec : avroDecode (some f) m.value = (m.value, true) := by
      simp [avroDecode, decodeMessageSpec, hf]
    cases raw with
    | true =>
      refine ⟨(["could not decode Avro data"], m.value), ?_, by simp, Or.inl rfl⟩
      simp [processMessage, hdec]
    | false =>
      cases hh : decodeHeaders m.headers with
      | none => exact absurd hh hhdr
      | some hdrLines =>
        simp only [processMessage, hh, hdec]
        cases hjf : jfmt m.value with
        | none =>
          refine ⟨_, rfl, by simp, Or.inl ?_⟩
          simp [hjf]
        | some x =>
          refine ⟨_, rfl, by simp, Or.inr ⟨by trivial, ?_⟩⟩
          simp [hjf]
  · intro sc jfmt kfmt raw msgs
    induction msgs with
    | nil => intro outs h; simp [consumeLoop] at h; simp [← h]
    | cons m rest ih =>
      intro outs h
      simp only [consumeLoop] at h
      cases hp : processMessage sc jfmt kfmt raw m with
      | none => rw [hp] at h; simp at h
      | some out =>
        rw [hp] at h
        cases hc : consumeLoop sc jfmt kfmt raw rest with
        | none => rw [hc] at h; simp at h
        | some outs2 =>
          rw [hc] at h
          simp at h
          subst h
          simp [ih outs2 hc]

/-- Witness for C5 amended: a record with a failing schema decoder, a
  failing pretty printer, no headers and a one message fetch loop. -/
theorem decode_failure_degrades_witness :
    (decodeHeaders msgB.headers ≠ none ∧
      (fun _ => (none : Option (List UInt8))) msgB.value = none ∧
      ∃ out, processMessage (some fun _ => none) (fun _ => none)
          (fun _ => none) false msgB = some out ∧
        out.1 ≠ [] ∧
        (out.2 = msgB.value ∨
          (false = false ∧ (fun _ => (none : Option (List UInt8))) msgB.value = some out.2))) ∧
    (consumeLoop none (fun _ => none) (fun _ => none) true [msgB] =
        some [([], [7])] ∧
      ([([], [7])] : List (List String × List UInt8)).length = [msgB].length) := by
  refine ⟨⟨?_, rfl, ?_⟩, rfl, ?_⟩
  · decide
  · exact decode_failure_degrades.1 (fun _ => none) (fun _ => none)
      (fun _ => none) false msgB (by decide) rfl
  · exact decode_failure_degrades.2 none (fun _ => none) (fun _ => none)
      true [msgB] [([], [7])] rfl

/-- C6 counterexample: a header value of first byte 161, length byte
  254 and 254 following bytes satisfies the claim hypothesis, yet the
  code panics: the high slice index 2+254 is computed in byte
  arithmetic and wraps to 0, below the low index 2, so the slice
  expression aborts instead of yielding the 254 bytes as text. -/
theorem header_161_wraps_at_254 :
    decodeHeaderValue (161 :: 254 :: List.replicate 254 (0 : UInt8)) = none ∧
    (none : Option String) ≠
      some (bytesToText ((List.replicate 254 (0 : UInt8)).take 254)) := by
  constructor
  · rfl
  · exact fun h => Option.noConfusion h

/-- C6 amended: for every header value of first byte 161, length byte L
  with L at most 253, and at least L further bytes, the decoded header
  text is the L bytes starting at index 2 interpreted as text. For L of
  254 or 255 the high slice index wraps modulo 256 and the code panics
  instead. -/
theorem header_161_short_string (L : UInt8) (rest : List UInt8)
    (hL : L.toNat ≤ 253) (hlen : L.toNat ≤ rest.length) :
    decodeHeaderValue (161 :: L :: rest) =
      some (bytesToText (rest.take L.toNat)) := by
  have h2 : (2 + L.toNat) % 256 = 2 + L.toNat := Nat.mod_eq_of_lt (by omega)
  have h3 : 2 + L.toNat - 2 = L.toNat := by omega
  have hc : 2 ≤ 2 + L.toNat ∧ 2 + L.toNat ≤ rest.length + 2 :=
    ⟨by omega, by omega⟩
  simp only [decodeHeaderValue, h2, h3]
  rw [if_pos trivial, if_pos hc]

/-- Witness for C6 amended: the vendor example 161, 5, hello. -/
theorem header_161_short_string_witness :
    ((5 : UInt8).toNat ≤ 253) ∧
    ((5 : UInt8).toNat ≤ ([104, 101, 108, 108, 111] : List UInt8).length) ∧
    decodeHeaderValue [161, 5, 104, 101, 108, 108, 111] =
      some (bytesToText (([104, 101, 108, 108, 111] : List UInt8).take
        (5 : UInt8).toNat)) :=
  ⟨by decide, by decide,
    header_161_short_string 5 [104, 101, 108, 108, 111] (by decide) (by decide)⟩

/-- C7: for every header value of first byte 131 followed by at least
  eight bytes, the decoded header text is the decimal representation of
  the big endian 64 bit unsigned integer held in those eight bytes. -/
theorem header_131_big_endian (b1 b2 b3 b4 b5 b6 b7 b8 : UInt8)
    (rest : List UInt8) :
    decodeHeaderValue (131 :: b1 :: b2 :: b3 :: b4 :: b5 :: b6 :: b7 :: b8 :: rest) =
      some (Nat.repr (b1.toNat * 256 ^ 7 + b2.toNat * 256 ^ 6 +
        b3.toNat * 256 ^ 5 + b4.toNat * 256 ^ 4 + b5.toNat * 256 ^ 3 +
        b6.toNat * 256 ^ 2 + b7.toNat * 256 + b8.toNat)) := by
  have hlen : 8 ≤ (b1 :: b2 :: b3 :: b4 :: b5 :: b6 :: b7 :: b8 :: rest).length := by
    simp only [List.length_cons]
    omega
  have hbe : beUint64 ((b1 :: b2 :: b3 :: b4 :: b5 :: b6 :: b7 :: b8 :: rest).take 8) =
      b1.toNat * 256 ^ 7 + b2.toNat * 256 ^ 6 + b3.toNat * 256 ^ 5 +
        b4.toNat * 256 ^ 4 + b5.toNat * 256 ^ 3 + b6.toNat * 256 ^ 2 +
        b7.toNat * 256 + b8.toNat := by
    simp only [beUint64, List.take_succ_cons, List.take_zero, List.foldl]
    ring
  simp only [decodeHeaderValue, hbe]
  rw [if_neg (by decide), if_pos trivial, if_pos hlen]

/-- C8: the start offset of a partition is claimed to depend only on the
  own probe of that partition and the configured mode. The code shares
  one offset variable across all partition goroutines, so under the
  schedule that runs the worker of the partition with high watermark 10
  first, the partition with high watermark 0 starts at offset 9 — the
  follow offset of the other partition — whereas run alone it would
  start at the Oldest sentinel. -/
theorem shared_offset_leaks_across_partitions :
    runWorkersSeq true (resolveFlagOffset "oldest") [10, 0] = [9, 9] ∧
    runWorkersSeq true (resolveFlagOffset "oldest") [0] = [OffsetOldest] := by
  constructor <;> rfl

/-- C9: every record emission is one lock delimited critical section
  containing both stream writes, and any complete global trace that
  respects the mutex discipline decomposes into whole critical sections,
  its write stream being the concatenation of the per record write
  blocks — no write of one record appears inside the block of
  another. -/
theorem sink_atomic_blocks :
    (∀ (w : Nat) (diag payload : String),
      emitEvents w diag payload = segEvents ⟨w, [diag, payload, "\n"]⟩) ∧
    (∀ t : List SinkEvent, mutexed t →
      ∃ segs : List (Nat × List String),
        t = (segs.map segEvents).flatten ∧
        writesOf t = (segs.map Prod.snd).flatten) := by
  constructor
  · intro w diag payload; rfl
  · intro t h
    obtain ⟨segs, hsegs⟩ := runLock_decomp t.length t le_rfl h
    exact ⟨segs, hsegs, by rw [hsegs, writesOf_join_segs]⟩

/-- Witness for C9: the trace of two records emitted one after the other
  by the workers of two partitions. -/
theorem sink_atomic_blocks_witness :
    mutexed (emitEvents 0 "da" "pa" ++ emitEvents 1 "db" "pb") ∧
    ∃ segs : List (Nat × List String),
      emitEvents 0 "da" "pa" ++ emitEvents 1 "db" "pb" =
        (segs.map segEvents).flatten ∧
      writesOf (emitEvents 0 "da" "pa" ++ emitEvents 1 "db" "pb") =
        (segs.map Prod.snd).flatten :=
  ⟨by decide, sink_atomic_blocks.2 _ (by decide)⟩

/-- C10 counterexample: with raw output enabled and a failing schema
  decoder, the record still writes the decode error diagnostic to the
  diagnostics stream, refuting the claim that nothing is written there
  in raw mode. -/
theorem raw_mode_still_writes_decode_error :
    processMessage (some fun _ => none) (fun _ => none) (fun _ => none)
        true msgD =
      some (["could not decode Avro data"], [120]) ∧
    (["could not decode Avro data"] : List String) ≠ [] := by
  exact ⟨rfl, by simp⟩

/-- C10 amended: raw mode suppresses the metadata block (headers, key,
  partition, offset, timestamp), performs no header or key decoding and
  no pretty printing, and prints the schema decode output as the
  payload; but a value schema decode failure still writes its error
  diagnostic to the diagnostics stream, which otherwise stays empty. -/
theorem raw_mode_output :
    ∀ (sc : Option (List UInt8 → Option (List UInt8)))
      (jfmt kfmt : List UInt8 → Option (List UInt8)) (m : FetchedMsg),
      processMessage sc jfmt kfmt true m =
        some ((if (avroDecode sc m.value).2 then
            ["could not decode Avro data"] else []),
          (avroDecode sc m.value).1) := by
  intro sc jfmt kfmt m
  rfl

end Kaf
